import Mathlib

/-!
Verification of the problem-update core of the PaPILO presolve library
(src/papilo/core/ProblemUpdate.hpp), as a shallow embedding in Lean.

The embedding models the state owned by the `ProblemUpdate` class together
with the fields of `Problem`, `Postsolve` and `Statistics` that the verified
operations touch.  Arrays are modelled as total functions from `Nat`;
the numeric type `REAL` is modelled by `ℚ`; the numeric helper `Num<REAL>`
(papilo/misc/Num.hpp, not part of the sources under verification) is
modelled by a structure of abstract predicates, so all theorems hold for
every tolerance setting.  Reduction records are modelled by the operation
the applier dispatches on; the integer tag encoding of `Reductions.hpp`
is not part of the sources under verification.
-/

namespace PapiloSpec

/-- Status codes returned by the mutating primitives (PresolveStatus). -/
inductive PresolveStatus where
  | kUnchanged
  | kReduced
  | kInfeasible
  | kUnbndOrInfeas
  deriving DecidableEq, Repr

/-- Result of the phase-1 conflict check (ConflictType). -/
inductive ConflictType where
  | kNoConflict
  | kConflict
  | kPostpone
  deriving DecidableEq, Repr

/-- Result of applying a transaction (ApplyResult). -/
inductive ApplyResult where
  | kApplied
  | kRejected
  | kPostponed
  | kInfeasible
  deriving DecidableEq, Repr

/-- Which activity bound a change affects (ActivityChange). -/
inductive ActivityChange where
  | kMin
  | kMax
  deriving DecidableEq, Repr

/-- Which column bound changed (BoundChange). -/
inductive BoundChange where
  | kLower
  | kUpper
  deriving DecidableEq, Repr

/-- Column flags (ColFlag).  The combined masks kLbUseless, kUbUseless,
kInactive and kUnbounded of the source are the derived tests below. -/
structure ColFlagsM where
  lbInf : Bool
  ubInf : Bool
  lbHuge : Bool
  ubHuge : Bool
  integral : Bool
  implInt : Bool
  fixed : Bool
  substituted : Bool
  deriving DecidableEq, Repr

/-- Test of the combined mask ColFlag::kInactive = kFixed | kSubstituted. -/
def ColFlagsM.inactive (f : ColFlagsM) : Bool := f.fixed || f.substituted

/-- Test of the combined mask ColFlag::kLbUseless = kLbInf | kLbHuge. -/
def ColFlagsM.lbUseless (f : ColFlagsM) : Bool := f.lbInf || f.lbHuge

/-- Test of the combined mask ColFlag::kUbUseless = kUbInf | kUbHuge. -/
def ColFlagsM.ubUseless (f : ColFlagsM) : Bool := f.ubInf || f.ubHuge

/-- Test of the combined mask ColFlag::kUnbounded = kLbInf | kUbInf. -/
def ColFlagsM.unbounded (f : ColFlagsM) : Bool := f.lbInf || f.ubInf

/-- Row flags (RowFlag). -/
structure RowFlagsM where
  lhsInf : Bool
  rhsInf : Bool
  equation : Bool
  redundant : Bool
  deriving DecidableEq, Repr

/-- Row activity record (RowActivity): finite bound sums, infinite
contribution counters, and the round of the last enqueue. -/
structure RowActivityM where
  amin : ℚ
  amax : ℚ
  ninfmin : Nat
  ninfmax : Nat
  lastchange : Int
  deriving DecidableEq, Repr

/-- Statistics counters (Statistics). -/
structure StatsM where
  nboundchgs : Int
  ncoefchgs : Int
  nsidechgs : Int
  ndeletedcols : Int
  ndeletedrows : Int
  nrounds : Int
  deriving DecidableEq, Repr

/-- Per-round conflict-detection state flags of a row or column
(ProblemUpdate::State). -/
structure TxStateFlags where
  locked : Bool
  modified : Bool
  boundsModified : Bool
  deriving DecidableEq, Repr

/-- One of the three per-round state bits. -/
inductive TxFlag where
  | locked
  | modified
  | boundsModified
  deriving DecidableEq, Repr

/-- Test for State::kUnmodified, the empty flag set. -/
def TxStateFlags.isUnmodified (f : TxStateFlags) : Bool :=
  !(f.locked || f.modified || f.boundsModified)

/-- Set one state bit (Flags::set). -/
def TxStateFlags.setFlag (f : TxStateFlags) : TxFlag → TxStateFlags
  | .locked => { f with locked := true }
  | .modified => { f with modified := true }
  | .boundsModified => { f with boundsModified := true }

/-- Events appended to the postsolve trail (Postsolve notifications). -/
inductive PostsolveEvent where
  | fixedCol (col : Nat) (val : ℚ)
  | fixedInfCol (col : Nat) (sign : Int) (val : ℚ)
  | parallelCols (col1 : Nat) (int1 : Bool) (lbinf1 : Bool) (lb1 : ℚ)
      (ubinf1 : Bool) (ub1 : ℚ) (col2 : Nat) (int2 : Bool) (lbinf2 : Bool)
      (lb2 : ℚ) (ubinf2 : Bool) (ub2 : ℚ) (scale : ℚ)
  deriving DecidableEq, Repr

/-- The fields of `Problem` that the verified operations read or write.
The sparse matrix is represented by its column-wise view `cols`, mapping a
column to the list of (row, value) pairs of its non-zero entries. -/
structure ProblemM where
  lbs : Nat → ℚ
  ubs : Nat → ℚ
  cflags : Nat → ColFlagsM
  objCoef : Nat → ℚ
  objOffset : ℚ
  lhs : Nat → ℚ
  rhs : Nat → ℚ
  rflags : Nat → RowFlagsM
  rowSize : Nat → Int
  colSize : Nat → Int
  activities : Nat → RowActivityM
  nIntegralCols : Int
  nContinuousCols : Int
  cols : Nat → List (Nat × ℚ)

/-- The state owned by `ProblemUpdate` together with the problem, the
postsolve trail and the statistics it mutates. -/
structure UpdateM where
  problem : ProblemM
  postsolveTrail : List PostsolveEvent
  stats : StatsM
  rowState : Nat → TxStateFlags
  colState : Nat → TxStateFlags
  dirtyRowStates : List Nat
  dirtyColStates : List Nat
  deletedCols : List Nat
  redundantRows : List Nat
  changedActivities : List Nat
  singletonRows : List Nat
  singletonColumns : List Nat
  emptyColumns : List Nat
  firstNewSingletonCol : Nat
  matrixBuffer : List (Nat × Nat × ℚ)
  postponeSubstitutions : Bool

/-- The numeric helper Num<REAL> (papilo/misc/Num.hpp is not among the
sources under verification), modelled by abstract predicates so that the
theorems hold for every tolerance setting. -/
structure NumM where
  isHugeVal : ℚ → Bool
  isFeasGT : ℚ → ℚ → Bool
  isFeasLT : ℚ → ℚ → Bool
  isFeasIntegral : ℚ → Bool
  feasCeil : ℚ → ℚ
  feasFloor : ℚ → ℚ

/-- The presolve options consumed by the verified operations. -/
structure PresolveOptionsM where
  dualreds : Nat

/-- Pointwise update of a function representing an array. -/
def updf {β : Type} (f : Nat → β) (i : Nat) (v : β) : Nat → β :=
  fun x => if x = i then v else f x

theorem updf_same {β : Type} (f : Nat → β) (i : Nat) (v : β) :
    updf f i v i = v := by
  simp [updf]

theorem updf_ne {β : Type} (f : Nat → β) (i : Nat) (v : β) (x : Nat)
    (h : x ≠ i) : updf f i v x = f x := by
  simp [updf, h]

theorem updf_self {β : Type} (f : Nat → β) (i : Nat) :
    updf f i (f i) = f := by
  funext x
  by_cases h : x = i <;> simp [updf, h]

/-- ProblemUpdate::setColState: record a per-round state bit of a column,
remembering the column in the dirty list on its first modification. -/
def setColState (s : UpdateM) (col : Nat) (fl : TxFlag) : UpdateM :=
  let s1 := if (s.colState col).isUnmodified then
      { s with dirtyColStates := s.dirtyColStates ++ [col] }
    else s
  { s1 with colState := updf s1.colState col ((s1.colState col).setFlag fl) }

/-- ProblemUpdate::setRowState: record a per-round state bit of a row,
remembering the row in the dirty list on its first modification. -/
def setRowState (s : UpdateM) (row : Nat) (fl : TxFlag) : UpdateM :=
  let s1 := if (s.rowState row).isUnmodified then
      { s with dirtyRowStates := s.dirtyRowStates ++ [row] }
    else s
  { s1 with rowState := updf s1.rowState row ((s1.rowState row).setFlag fl) }

/-- ProblemUpdate::markRowRedundant: record-only deletion of a row,
guarded so that the counter moves only on the first call. -/
def markRowRedundant (s : UpdateM) (row : Nat) : UpdateM :=
  if (s.problem.rflags row).redundant then s
  else
    { s with
      redundantRows := s.redundantRows ++ [row],
      stats := { s.stats with ndeletedrows := s.stats.ndeletedrows + 1 },
      problem := { s.problem with
        rflags := updf s.problem.rflags row
          { (s.problem.rflags row) with redundant := true } } }

/-- ProblemUpdate::markColFixed: record-only fixing of a column.  The
source asserts that the column is not yet inactive and then sets the flag,
pushes the column and bumps the counter unconditionally. -/
def markColFixed (s : UpdateM) (col : Nat) : UpdateM :=
  { s with
    problem := { s.problem with
      cflags := updf s.problem.cflags col
        { (s.problem.cflags col) with fixed := true },
      nIntegralCols :=
        if (s.problem.cflags col).integral then s.problem.nIntegralCols - 1
        else s.problem.nIntegralCols,
      nContinuousCols :=
        if (s.problem.cflags col).integral then s.problem.nContinuousCols
        else s.problem.nContinuousCols - 1 },
    deletedCols := s.deletedCols ++ [col],
    stats := { s.stats with ndeletedcols := s.stats.ndeletedcols + 1 } }

/-- Modelled from the spec: ConstraintMatrix::isRowRedundant (the
constraint-matrix sources are not under verification); the spec reads it
as the test that the row is flagged redundant. -/
def isRowRedundant (p : ProblemM) (row : Nat) : Bool :=
  (p.rflags row).redundant

/-- ProblemUpdate::update_activity: enqueue a row whose activity moved,
unless it is already enqueued this round, the touched side is multiply
infinite, or the row is redundant. -/
def update_activity (s : UpdateM) (actChange : ActivityChange) (rowid : Nat) :
    UpdateM :=
  let activity := s.problem.activities rowid
  if activity.lastchange = s.stats.nrounds then s
  else if actChange = ActivityChange.kMin ∧ activity.ninfmin > 1 then s
  else if actChange = ActivityChange.kMax ∧ activity.ninfmax > 1 then s
  else if isRowRedundant s.problem rowid then s
  else
    { s with
      problem := { s.problem with
        activities := updf s.problem.activities rowid
          { activity with lastchange := s.stats.nrounds } },
      changedActivities := s.changedActivities ++ [rowid] }

/-- Which activity bound a bound change of the given sign affects.
Modelled from the spec: if the side is Lower and the coefficient is
positive (or Upper and negative), the change affects min; symmetric for
max. -/
def affectedSide (bc : BoundChange) (v : ℚ) : ActivityChange :=
  match bc with
  | .kLower => if v > 0 then .kMin else .kMax
  | .kUpper => if v > 0 then .kMax else .kMin

/-- Arithmetic effect of one bound change on one row activity.
Modelled from the spec: an infinite-to-finite transition decrements the
corresponding infinity counter and adds v times the new value; a
finite-to-finite transition adjusts by v times the difference.  At the
call sites of the verified operations the new bound is always finite. -/
def applyBoundChangeToActivity (side : ActivityChange) (v oldV newV : ℚ)
    (wasInfinite : Bool) (a : RowActivityM) : RowActivityM :=
  match side with
  | .kMin =>
    if wasInfinite then
      { a with ninfmin := a.ninfmin - 1, amin := a.amin + v * newV }
    else { a with amin := a.amin + v * (newV - oldV) }
  | .kMax =>
    if wasInfinite then
      { a with ninfmax := a.ninfmax - 1, amax := a.amax + v * newV }
    else { a with amax := a.amax + v * (newV - oldV) }

/-- The free function update_activities_after_boundchange.
Modelled from the spec (its defining header is not among the sources
under verification): walk the column entries, update the affected
activity bound of each row, and invoke the callback after each update. -/
def update_activities_after_boundchange (bc : BoundChange) (oldV newV : ℚ)
    (wasInfinite : Bool) (cb : ActivityChange → Nat → UpdateM → UpdateM) :
    List (Nat × ℚ) → UpdateM → UpdateM
  | [], s => s
  | rv :: rest, s =>
    let side := affectedSide bc rv.2
    let s1 := { s with problem := { s.problem with
      activities := updf s.problem.activities rv.1
        (applyBoundChangeToActivity side rv.2 oldV newV wasInfinite
          (s.problem.activities rv.1)) } }
    update_activities_after_boundchange bc oldV newV wasInfinite cb rest
      (cb side rv.1 s1)

/-- The updateActivity lambda passed by the mutators of ProblemUpdate:
it forwards to ProblemUpdate::update_activity. -/
def updateActivityCallback : ActivityChange → Nat → UpdateM → UpdateM :=
  fun actChange rowid s => update_activity s actChange rowid

/-- A callback that ignores the activity change, as passed in several
branches of the PARALLEL reduction. -/
def noopActivityCallback : ActivityChange → Nat → UpdateM → UpdateM :=
  fun _ _ s => s

/-- Bump of the bound-change counter (++stats.nboundchgs). -/
def bumpBoundChgs (s : UpdateM) : UpdateM :=
  { s with stats := { s.stats with nboundchgs := s.stats.nboundchgs + 1 } }

/-- ProblemUpdate::fixCol. -/
def fixCol (nm : NumM) (s : UpdateM) (col : Nat) (val : ℚ) :
    PresolveStatus × UpdateM :=
  let cf := s.problem.cflags col
  if cf.substituted then (.kUnchanged, s)
  else
    let lbchanged : Bool := cf.lbInf || decide (val ≠ s.problem.lbs col)
    let ubchanged : Bool := cf.ubInf || decide (val ≠ s.problem.ubs col)
    let s1 := if lbchanged then bumpBoundChgs s else s
    let s2 := if ubchanged then bumpBoundChgs s1 else s1
    if lbchanged || ubchanged then
      if (cf.lbInf = false ∧ nm.isFeasLT val (s.problem.lbs col)) ∨
         (cf.ubInf = false ∧ nm.isFeasGT val (s.problem.ubs col)) ∨
         (cf.integral = true ∧ nm.isFeasIntegral val = false) then
        (.kInfeasible, s2)
      else if cf.fixed then (.kUnchanged, s2)
      else
        let s3 :=
          if lbchanged then
            let t := update_activities_after_boundchange .kLower
              (s2.problem.lbs col) val cf.lbUseless updateActivityCallback
              (s2.problem.cols col) s2
            { t with problem := { t.problem with
                lbs := updf t.problem.lbs col val,
                cflags := updf t.problem.cflags col
                  { (t.problem.cflags col) with
                      lbInf := false, lbHuge := false } } }
          else s2
        let s4 :=
          if ubchanged then
            let t := update_activities_after_boundchange .kUpper
              (s3.problem.ubs col) val (s3.problem.cflags col).ubUseless
              updateActivityCallback (s3.problem.cols col) s3
            { t with problem := { t.problem with
                ubs := updf t.problem.ubs col val,
                cflags := updf t.problem.cflags col
                  { (t.problem.cflags col) with
                      ubInf := false, ubHuge := false } } }
          else s3
        let s5 := markColFixed s4 col
        (.kReduced, setColState s5 col .boundsModified)
    else (.kUnchanged, s2)

/-- ProblemUpdate::fixColInfinity: marks an active column fixed without
touching bounds or activities. -/
def fixColInfinity (s : UpdateM) (col : Nat) (val : ℚ) :
    PresolveStatus × UpdateM :=
  let cf := s.problem.cflags col
  if cf.substituted || cf.fixed || decide (val = 0) then (.kUnchanged, s)
  else
    let s1 := markColFixed s col
    (.kReduced, setColState s1 col .boundsModified)

/-- Conjunction of the two assert conditions in the body of
ProblemUpdate::fixColInfinity, in the order they are executed:
assert(val < 0 && !kLbInf) followed by assert(val > 0 && !kUbInf). -/
def fixColInfinityAsserts (cf : ColFlagsM) (val : ℚ) : Bool :=
  (decide (val < 0) && !cf.lbInf) && (decide (val > 0) && !cf.ubInf)

/-- The new bound proposed to changeLB after rounding for integral or
implied-integral columns. -/
def chLBnb (nm : NumM) (s : UpdateM) (col : Nat) (val : ℚ) : ℚ :=
  if (s.problem.cflags col).integral || (s.problem.cflags col).implInt then
    nm.feasCeil val
  else val

/-- The new bound proposed to changeUB after rounding for integral or
implied-integral columns. -/
def chUBnb (nm : NumM) (s : UpdateM) (col : Nat) (val : ℚ) : ℚ :=
  if (s.problem.cflags col).integral || (s.problem.cflags col).implInt then
    nm.feasFloor val
  else val

/-- Tail of ProblemUpdate::changeLB from the isHugeVal test on, with the
possibly clamped new bound as argument. -/
def changeLBFinish (nm : NumM) (s : UpdateM) (col : Nat) (newbound : ℚ) :
    PresolveStatus × UpdateM :=
  let cf := s.problem.cflags col
  let s1 : UpdateM :=
    if nm.isHugeVal newbound then
      { s with problem := { s.problem with
          cflags := updf s.problem.cflags col { cf with lbInf := false } } }
    else
      let t := update_activities_after_boundchange .kLower
        (s.problem.lbs col) newbound cf.lbUseless updateActivityCallback
        (s.problem.cols col) s
      { t with problem := { t.problem with
          cflags := updf t.problem.cflags col
            { (t.problem.cflags col) with
                lbInf := false, lbHuge := false } } }
  let s2 : UpdateM := { s1 with problem := { s1.problem with
    lbs := updf s1.problem.lbs col newbound } }
  let s3 : UpdateM :=
    if (s2.problem.cflags col).ubInf = false ∧
       s2.problem.ubs col = s2.problem.lbs col then
      { s2 with
        problem := { s2.problem with
          cflags := updf s2.problem.cflags col
            { (s2.problem.cflags col) with fixed := true },
          nIntegralCols :=
            if (s2.problem.cflags col).integral then
              s2.problem.nIntegralCols - 1
            else s2.problem.nIntegralCols,
          nContinuousCols :=
            if (s2.problem.cflags col).integral then
              s2.problem.nContinuousCols
            else s2.problem.nContinuousCols - 1 },
        deletedCols := s2.deletedCols ++ [col],
        stats := { s2.stats with
          ndeletedcols := s2.stats.ndeletedcols + 1 } }
    else s2
  (.kReduced, setColState s3 col .boundsModified)

/-- ProblemUpdate::changeLB. -/
def changeLB (nm : NumM) (s : UpdateM) (col : Nat) (val : ℚ) :
    PresolveStatus × UpdateM :=
  let cf := s.problem.cflags col
  if cf.substituted then (.kUnchanged, s)
  else
    let newbound := chLBnb nm s col val
    if cf.lbInf = true ∨ newbound > s.problem.lbs col then
      let s1 := bumpBoundChgs s
      if cf.ubInf = false ∧ newbound > s.problem.ubs col then
        if nm.isFeasGT newbound (s.problem.ubs col) then (.kInfeasible, s1)
        else if cf.lbInf = false ∧ s.problem.lbs col = s.problem.ubs col then
          (.kUnchanged, s1)
        else changeLBFinish nm s1 col (s.problem.ubs col)
      else changeLBFinish nm s1 col newbound
    else (.kUnchanged, s)

/-- Tail of ProblemUpdate::changeUB from the isHugeVal test on, with the
possibly clamped new bound as argument. -/
def changeUBFinish (nm : NumM) (s : UpdateM) (col : Nat) (newbound : ℚ) :
    PresolveStatus × UpdateM :=
  let cf := s.problem.cflags col
  let s1 : UpdateM :=
    if nm.isHugeVal newbound then
      { s with problem := { s.problem with
          cflags := updf s.problem.cflags col { cf with ubInf := false } } }
    else
      let t := update_activities_after_boundchange .kUpper
        (s.problem.ubs col) newbound cf.ubUseless updateActivityCallback
        (s.problem.cols col) s
      { t with problem := { t.problem with
          cflags := updf t.problem.cflags col
            { (t.problem.cflags col) with
                ubInf := false, ubHuge := false } } }
  let s2 : UpdateM := { s1 with problem := { s1.problem with
    ubs := updf s1.problem.ubs col newbound } }
  let s3 : UpdateM :=
    if (s2.problem.cflags col).lbInf = false ∧
       s2.problem.ubs col = s2.problem.lbs col then
      { s2 with
        problem := { s2.problem with
          cflags := updf s2.problem.cflags col
            { (s2.problem.cflags col) with fixed := true },
          nIntegralCols :=
            if (s2.problem.cflags col).integral then
              s2.problem.nIntegralCols - 1
            else s2.problem.nIntegralCols,
          nContinuousCols :=
            if (s2.problem.cflags col).integral then
              s2.problem.nContinuousCols
            else s2.problem.nContinuousCols - 1 },
        deletedCols := s2.deletedCols ++ [col],
        stats := { s2.stats with
          ndeletedcols := s2.stats.ndeletedcols + 1 } }
    else s2
  (.kReduced, setColState s3 col .boundsModified)

/-- ProblemUpdate::changeUB. -/
def changeUB (nm : NumM) (s : UpdateM) (col : Nat) (val : ℚ) :
    PresolveStatus × UpdateM :=
  let cf := s.problem.cflags col
  if cf.substituted then (.kUnchanged, s)
  else
    let newbound := chUBnb nm s col val
    if cf.ubInf = true ∨ newbound < s.problem.ubs col then
      let s1 := bumpBoundChgs s
      if cf.lbInf = false ∧ newbound < s.problem.lbs col then
        if nm.isFeasLT newbound (s.problem.lbs col) then (.kInfeasible, s1)
        else if cf.ubInf = false ∧ s.problem.lbs col = s.problem.ubs col then
          (.kUnchanged, s1)
        else changeUBFinish nm s1 col (s.problem.lbs col)
      else changeUBFinish nm s1 col newbound
    else (.kUnchanged, s)

/-- The rowsize-zero arm of the loop in ProblemUpdate::trivialRowPresolve,
acting on the flags, the sides and the size entry of one row: a feasibly
positive finite left-hand side or feasibly negative finite right-hand side
is infeasible, and otherwise the row is marked redundant with its size set
to -1 and the loop status becomes kReduced. -/
def trivialRowPresolveEmptyRow (nm : NumM) (rf : RowFlagsM)
    (lhsv rhsv : ℚ) (rowsz : Int) : PresolveStatus × RowFlagsM × Int :=
  if rf.lhsInf = false ∧ nm.isFeasGT lhsv 0 = true then
    (.kInfeasible, rf, rowsz)
  else if rf.rhsInf = false ∧ nm.isFeasLT rhsv 0 = true then
    (.kInfeasible, rf, rowsz)
  else (.kReduced, { rf with redundant := true }, -1)

/-- Common tail of the fixing branch in ProblemUpdate::removeEmptyColumns:
notify postsolve, set the fixed flag and update the deletion counters. -/
def emptyColNotifyFix (s : UpdateM) (col : Nat) (fixval : ℚ) : UpdateM :=
  { s with
    postsolveTrail := s.postsolveTrail ++ [.fixedCol col fixval],
    problem := { s.problem with
      cflags := updf s.problem.cflags col
        { (s.problem.cflags col) with fixed := true },
      nIntegralCols :=
        if (s.problem.cflags col).integral then s.problem.nIntegralCols - 1
        else s.problem.nIntegralCols,
      nContinuousCols :=
        if (s.problem.cflags col).integral then s.problem.nContinuousCols
        else s.problem.nContinuousCols - 1 },
    stats := { s.stats with ndeletedcols := s.stats.ndeletedcols + 1 } }

/-- Objective update of the fixing branch in removeEmptyColumns for a
column with non-zero objective coefficient. -/
def emptyColObjUpdate (s : UpdateM) (col : Nat) (fixval : ℚ) : UpdateM :=
  { s with problem := { s.problem with
    objOffset := s.problem.objOffset + s.problem.objCoef col * fixval,
    objCoef := updf s.problem.objCoef col 0 } }

/-- The fixing branch of removeEmptyColumns for an active empty column;
an error value is the kUnbndOrInfeas abort. -/
def emptyColFix (s : UpdateM) (col : Nat) : Except UpdateM UpdateM :=
  if s.problem.objCoef col = 0 then
    let fixval : ℚ :=
      if (s.problem.cflags col).ubInf = false ∧ s.problem.ubs col < 0 then
        s.problem.ubs col
      else if (s.problem.cflags col).lbInf = false ∧
          s.problem.lbs col > 0 then
        s.problem.lbs col
      else 0
    .ok (emptyColNotifyFix s col fixval)
  else if s.problem.objCoef col < 0 then
    if (s.problem.cflags col).ubInf then .error s
    else
      .ok (emptyColNotifyFix (emptyColObjUpdate s col (s.problem.ubs col))
        col (s.problem.ubs col))
  else
    if (s.problem.cflags col).lbInf then .error s
    else
      .ok (emptyColNotifyFix (emptyColObjUpdate s col (s.problem.lbs col))
        col (s.problem.lbs col))

/-- One iteration of the loop in removeEmptyColumns. -/
def removeEmptyColStep (opts : PresolveOptionsM) (s : UpdateM) (col : Nat) :
    Except UpdateM UpdateM :=
  if s.problem.colSize col ≠ 0 then .ok s
  else if opts.dualreds = 1 ∧ s.problem.objCoef col = 0 then .ok s
  else
    match (if (s.problem.cflags col).inactive = false then emptyColFix s col
           else .ok s) with
    | .error t => .error t
    | .ok t =>
      .ok { t with problem := { t.problem with
        colSize := updf t.problem.colSize col (-1) } }

/-- The loop of removeEmptyColumns over the emptyColumns worklist. -/
def removeEmptyColsLoop (opts : PresolveOptionsM) :
    List Nat → UpdateM → Except UpdateM UpdateM
  | [], s => .ok s
  | col :: rest, s =>
    match removeEmptyColStep opts s col with
    | .error t => .error t
    | .ok t => removeEmptyColsLoop opts rest t

/-- ProblemUpdate::removeEmptyColumns: when dual reductions are enabled
and the worklist is non-empty, fix every remaining empty column to an
optimal value and clear the worklist; otherwise do nothing. -/
def removeEmptyColumns (opts : PresolveOptionsM) (s : UpdateM) :
    PresolveStatus × UpdateM :=
  if opts.dualreds ≠ 0 ∧ s.emptyColumns ≠ [] then
    match removeEmptyColsLoop opts s.emptyColumns s with
    | .error t => (.kUnbndOrInfeas, t)
    | .ok t => (.kReduced, { t with emptyColumns := [] })
  else (.kUnchanged, s)

/-- The compaction loop of ProblemUpdate::flush over the singleton-column
worklist: iterate fuel times from position i with k entries removed so
far, counting entries that are no longer singletons and moving surviving
entries k positions to the left. -/
def compactGo (p : Nat → Bool) : Nat → List Nat → Nat → Nat →
    List Nat × Nat
  | 0, sc, _, k => (sc, k)
  | fuel + 1, sc, i, k =>
    match sc.get? i with
    | none => (sc, k)
    | some c =>
      if p c = false then compactGo p fuel sc (i + 1) (k + 1)
      else if k ≠ 0 then compactGo p fuel (sc.set (i - k) c) (i + 1) k
      else compactGo p fuel sc (i + 1) k

/-- The singleton-column compaction step of ProblemUpdate::flush: run the
two loops of the source (one over the previously seen prefix, one over
the new suffix, with a shared shift counter), shrink the worklist, and
shift the split index. -/
def flushSingletonCompaction (s : UpdateM) : UpdateM :=
  if s.singletonColumns.isEmpty then s
  else
    let p : Nat → Bool := fun c => decide (s.problem.colSize c = 1)
    let f := s.firstNewSingletonCol
    let r1 := compactGo p f s.singletonColumns 0 0
    let n := r1.1.length
    let r2 := compactGo p (n - f) r1.1 f r1.2
    { s with
      singletonColumns := r2.1.take (n - r2.2),
      firstNewSingletonCol := f - r1.2 }

/-- The singleton-consistency invariant of the spec: every entry of the
singleton-column worklist has column size one, and the split index lies
within the worklist. -/
def singletonConsistency (s : UpdateM) : Prop :=
  (∀ c ∈ s.singletonColumns, s.problem.colSize c = 1) ∧
  s.firstNewSingletonCol ≤ s.singletonColumns.length

/-- Reduction records, modelled by the operation the applier dispatches
on; the integer tag encoding of Reductions.hpp is not among the sources
under verification.  The operations whose application bodies consist of
constraint-matrix routines outside the verified sources (SUBSTITUTE,
SUBSTITUTE_OBJ, REPLACE, SPARSIFY, IMPL_INT and the row side changes) are
not part of the model. -/
inductive RedOp where
  | coeffChange (row col : Nat) (newval : ℚ)
  | colLocked (col : Nat)
  | colLockedStrong (col : Nat)
  | colBoundsLocked (col : Nat)
  | colObjective (col : Nat) (newval : ℚ)
  | colFixed (col : Nat) (newval : ℚ)
  | colFixedInfinity (col : Nat) (newval : ℚ)
  | colLowerBound (col : Nat) (newval : ℚ)
  | colUpperBound (col : Nat) (newval : ℚ)
  | colParallel (col1 col2 : Nat)
  | rowLocked (row : Nat)
  | rowLockedStrong (row : Nat)
  | rowRedundant (row : Nat)
  deriving DecidableEq, Repr

/-- The conflict test of ProblemUpdate::checkTransactionConflicts for one
reduction record.  Operations handled by the default arm of the source
switch report no conflict. -/
def reductionConflict (s : UpdateM) : RedOp → ConflictType
  | .coeffChange row col _ =>
    if (s.colState col).locked || (s.rowState row).locked then .kConflict
    else .kNoConflict
  | .colLocked col =>
    if (s.colState col).modified then .kConflict else .kNoConflict
  | .colLockedStrong col =>
    if (s.colState col).modified then .kConflict else .kNoConflict
  | .colBoundsLocked col =>
    if (s.colState col).boundsModified then .kConflict else .kNoConflict
  | .colObjective col _ =>
    if (s.colState col).locked then .kConflict else .kNoConflict
  | .colFixed _ _ => .kNoConflict
  | .colFixedInfinity _ _ => .kNoConflict
  | .colLowerBound _ _ => .kNoConflict
  | .colUpperBound _ _ => .kNoConflict
  | .colParallel _ _ => .kNoConflict
  | .rowLocked row =>
    if (s.rowState row).modified || (s.rowState row).boundsModified then
      .kConflict
    else .kNoConflict
  | .rowLockedStrong row =>
    if (s.rowState row).modified || (s.rowState row).boundsModified then
      .kConflict
    else .kNoConflict
  | .rowRedundant _ => .kNoConflict

/-- ProblemUpdate::checkTransactionConflicts: scan the records and return
on the first conflict. -/
def checkTransactionConflicts (s : UpdateM) : List RedOp → ConflictType
  | [] => .kNoConflict
  | r :: rs =>
    match reductionConflict s r with
    | .kNoConflict => checkTransactionConflicts s rs
    | c => c

/-- The body of the ColReduction::PARALLEL case of applyTransaction after
the inactivity rejection test: notify postsolve, merge the domains of the
two parallel columns into col2 with the derived scale, update activities
for the contributions that become useless, and treat col1 as substituted
with bounds zero. -/
def applyParallelMerge (s0 : UpdateM) (col1 col2 : Nat) : UpdateM :=
  let s := setColState (setColState s0 col1 .boundsModified) col2
    .boundsModified
  let col1vec := s.problem.cols col1
  let col2vec := s.problem.cols col2
  let col2scale : ℚ := (col1vec.headD (0, 0)).2 / (col2vec.headD (0, 0)).2
  let cf1 := s.problem.cflags col1
  let cf2 := s.problem.cflags col2
  let lb1 := s.problem.lbs col1
  let ub1 := s.problem.ubs col1
  let lb2 := s.problem.lbs col2
  let ub2 := s.problem.ubs col2
  let s := { s with
    postsolveTrail := s.postsolveTrail ++
      [PostsolveEvent.parallelCols col1 cf1.integral cf1.lbInf lb1
        cf1.ubInf ub1 col2 cf2.integral cf2.lbInf lb2 cf2.ubInf ub2
        col2scale],
    stats := { s.stats with ndeletedcols := s.stats.ndeletedcols + 1 } }
  let s := { s with problem := { s.problem with
    nIntegralCols :=
      if cf1.integral then s.problem.nIntegralCols - 1
      else if cf2.integral then s.problem.nIntegralCols - 1
      else s.problem.nIntegralCols,
    nContinuousCols :=
      if cf1.integral then s.problem.nContinuousCols
      else if cf2.integral then s.problem.nContinuousCols
      else s.problem.nContinuousCols - 1 } }
  let resLB : ℚ × Bool × Bool :=
    if col2scale < 0 then
      if cf2.lbInf = false ∧ cf1.ubInf = false then
        (lb2 + col2scale * ub1, false, cf1.ubHuge || cf2.lbHuge)
      else (0, true, false)
    else
      if cf2.lbInf = false ∧ cf1.lbInf = false then
        (lb2 + col2scale * lb1, false, cf1.lbHuge || cf2.lbHuge)
      else (0, true, false)
  let resUB : ℚ × Bool × Bool :=
    if col2scale < 0 then
      if cf2.ubInf = false ∧ cf1.lbInf = false then
        (ub2 + col2scale * lb1, false, cf1.lbHuge || cf2.ubHuge)
      else (0, true, false)
    else
      if cf2.ubInf = false ∧ cf1.ubInf = false then
        (ub2 + col2scale * ub1, false, cf1.ubHuge || cf2.ubHuge)
      else (0, true, false)
  let newflags : ColFlagsM :=
    { lbInf := resLB.2.1, ubInf := resUB.2.1, lbHuge := resLB.2.2,
      ubHuge := resUB.2.2, integral := cf1.integral, implInt := false,
      fixed := false, substituted := false }
  let zip2 : List (Nat × ℚ) :=
    List.zip (col1vec.map Prod.fst) (col2vec.map Prod.snd)
  let s : UpdateM :=
    if newflags.lbUseless then
      if cf2.lbUseless = false then
        (if lb2 ≠ 0 then
          update_activities_after_boundchange .kLower lb2 0 false
            noopActivityCallback zip2 s
        else s)
      else if col2scale < 0 then
        (if cf1.ubUseless = true ∨ ub1 ≠ 0 then
          update_activities_after_boundchange .kUpper ub1 0 cf1.ubUseless
            noopActivityCallback col1vec s
        else s)
      else
        (if cf1.lbUseless = true ∨ lb1 ≠ 0 then
          update_activities_after_boundchange .kLower lb1 0 cf1.lbUseless
            noopActivityCallback col1vec s
        else s)
    else s
  let s : UpdateM :=
    if newflags.ubUseless then
      if cf2.ubUseless = false then
        (if ub2 ≠ 0 then
          update_activities_after_boundchange .kUpper ub2 0 false
            updateActivityCallback zip2 s
        else s)
      else if col2scale < 0 then
        (if cf1.lbUseless = true ∨ lb1 ≠ 0 then
          update_activities_after_boundchange .kLower lb1 0 cf1.lbUseless
            noopActivityCallback col1vec s
        else s)
      else
        (if cf1.ubUseless = true ∨ ub1 ≠ 0 then
          update_activities_after_boundchange .kUpper ub1 0 cf1.ubUseless
            noopActivityCallback col1vec s
        else s)
    else s
  let s := { s with
    problem := { s.problem with
      lbs := updf s.problem.lbs col1 0,
      ubs := updf s.problem.ubs col1 0,
      cflags := updf s.problem.cflags col1
        { (s.problem.cflags col1) with
            lbInf := false, lbHuge := false, ubInf := false,
            ubHuge := false, substituted := true } },
    deletedCols := s.deletedCols ++ [col1] }
  { s with problem := { s.problem with
    lbs := updf s.problem.lbs col2 resLB.1,
    ubs := updf s.problem.ubs col2 resUB.1,
    cflags := updf s.problem.cflags col2 newflags } }

/-- The phase-2 dispatch of ProblemUpdate::applyTransaction for one
reduction record; a some result aborts the transaction with that result,
carrying the state at the abort point. -/
def applyReduction (nm : NumM) (s : UpdateM) :
    RedOp → Option ApplyResult × UpdateM
  | .coeffChange row col v =>
    let s1 := setColState (setRowState s row .modified) col .modified
    (none, { s1 with matrixBuffer := s1.matrixBuffer ++ [(row, col, v)] })
  | .colLocked _ => (none, s)
  | .colLockedStrong col => (none, setColState s col .locked)
  | .colBoundsLocked _ => (none, s)
  | .colObjective col v =>
    let s1 := setColState s col .modified
    (none, { s1 with problem := { s1.problem with
      objCoef := updf s1.problem.objCoef col v } })
  | .colFixed col v =>
    let r := fixCol nm s col v
    if r.1 = .kInfeasible then (some .kInfeasible, r.2) else (none, r.2)
  | .colFixedInfinity col v =>
    let r := fixColInfinity s col v
    if r.1 = .kInfeasible then (some .kInfeasible, r.2) else (none, r.2)
  | .colLowerBound col v =>
    let r := changeLB nm s col v
    if r.1 = .kInfeasible then (some .kInfeasible, r.2) else (none, r.2)
  | .colUpperBound col v =>
    let r := changeUB nm s col v
    if r.1 = .kInfeasible then (some .kInfeasible, r.2) else (none, r.2)
  | .colParallel col1 col2 =>
    if (s.problem.cflags col1).inactive = true ∨
       (s.problem.cflags col2).inactive = true then
      (some .kRejected, s)
    else (none, applyParallelMerge s col1 col2)
  | .rowLocked _ => (none, s)
  | .rowLockedStrong row => (none, setRowState s row .locked)
  | .rowRedundant row =>
    if (s.problem.rflags row).redundant then (none, s)
    else (none, markRowRedundant (setRowState s row .boundsModified) row)

/-- The phase-2 loop of ProblemUpdate::applyTransaction. -/
def applyTransactionGo (nm : NumM) :
    List RedOp → UpdateM → ApplyResult × UpdateM
  | [], s => (.kApplied, s)
  | r :: rs, s =>
    match applyReduction nm s r with
    | (some res, t) => (res, t)
    | (none, t) => applyTransactionGo nm rs t

/-- ProblemUpdate::applyTransaction: phase-1 conflict check, then the
phase-2 application walk. -/
def applyTransaction (nm : NumM) (s : UpdateM) (t : List RedOp) :
    ApplyResult × UpdateM :=
  match checkTransactionConflicts s t with
  | .kConflict => (.kRejected, s)
  | .kPostpone => (.kPostponed, s)
  | .kNoConflict => applyTransactionGo nm t s

/-- Column flags with every bit clear. -/
def cleanColFlags : ColFlagsM :=
  { lbInf := false, ubInf := false, lbHuge := false, ubHuge := false,
    integral := false, implInt := false, fixed := false,
    substituted := false }

/-- Row flags with every bit clear. -/
def cleanRowFlags : RowFlagsM :=
  { lhsInf := false, rhsInf := false, equation := false,
    redundant := false }

/-- A zero row activity, with lastchange at its initial value -1. -/
def cleanActivity : RowActivityM :=
  { amin := 0, amax := 0, ninfmin := 0, ninfmax := 0, lastchange := -1 }

/-- Zeroed statistics. -/
def cleanStats : StatsM :=
  { nboundchgs := 0, ncoefchgs := 0, nsidechgs := 0, ndeletedcols := 0,
    ndeletedrows := 0, nrounds := 0 }

/-- Per-round state with no bit set (State::kUnmodified). -/
def cleanTxState : TxStateFlags :=
  { locked := false, modified := false, boundsModified := false }

/-- A trivial problem used as the base of concrete test states. -/
def baseProblem : ProblemM :=
  { lbs := fun _ => 0, ubs := fun _ => 0, cflags := fun _ => cleanColFlags,
    objCoef := fun _ => 0, objOffset := 0, lhs := fun _ => 0,
    rhs := fun _ => 0, rflags := fun _ => cleanRowFlags,
    rowSize := fun _ => 0, colSize := fun _ => 0,
    activities := fun _ => cleanActivity, nIntegralCols := 0,
    nContinuousCols := 0, cols := fun _ => [] }

/-- A fresh update state over the trivial problem. -/
def baseState : UpdateM :=
  { problem := baseProblem, postsolveTrail := [], stats := cleanStats,
    rowState := fun _ => cleanTxState, colState := fun _ => cleanTxState,
    dirtyRowStates := [], dirtyColStates := [], deletedCols := [],
    redundantRows := [], changedActivities := [], singletonRows := [],
    singletonColumns := [], emptyColumns := [], firstNewSingletonCol := 0,
    matrixBuffer := [], postponeSubstitutions := false }

/-- A concrete numeric helper used by the witnesses: exact comparisons
(zero feasibility tolerance) and huge threshold one hundred. -/
def num0 : NumM :=
  { isHugeVal := fun v => decide ((100 : ℚ) ≤ v) || decide (v ≤ (-100 : ℚ)),
    isFeasGT := fun a b => decide (b < a),
    isFeasLT := fun a b => decide (a < b),
    isFeasIntegral := fun v => decide (v.den = 1),
    feasCeil := fun v => (⌈v⌉ : ℚ),
    feasFloor := fun v => (⌊v⌋ : ℚ) }

/-- C7: update_activity appends the row to changedActivities and stamps
lastchange with the current round number exactly when the row is not
already flagged for this round, the row is not redundant, and the touched
activity side is not multiply infinite (ninfmin at most one for a min
change, ninfmax at most one for a max change); otherwise it leaves the
whole state unchanged. -/
theorem papilo_C7_update_activity (s : UpdateM) (actChange : ActivityChange)
    (rowid : Nat) :
    update_activity s actChange rowid =
      if (s.problem.activities rowid).lastchange ≠ s.stats.nrounds ∧
         isRowRedundant s.problem rowid = false ∧
         (actChange = .kMin → (s.problem.activities rowid).ninfmin ≤ 1) ∧
         (actChange = .kMax → (s.problem.activities rowid).ninfmax ≤ 1) then
        { s with
          problem := { s.problem with
            activities := updf s.problem.activities rowid
              { s.problem.activities rowid with
                  lastchange := s.stats.nrounds } },
          changedActivities := s.changedActivities ++ [rowid] }
      else s := by
  cases actChange
  case kMin =>
    by_cases h1 : (s.problem.activities rowid).lastchange = s.stats.nrounds
    · simp [update_activity, h1]
    · by_cases h4 : isRowRedundant s.problem rowid = true
      · simp [update_activity, h1, h4]
      · by_cases h2 : (s.problem.activities rowid).ninfmin > 1
        · have h2b : ¬ (s.problem.activities rowid).ninfmin ≤ 1 := by omega
          simp [update_activity, h1, h2, h2b, h4]
        · have h2b : (s.problem.activities rowid).ninfmin ≤ 1 := by omega
          have h4b : isRowRedundant s.problem rowid = false := by
            simpa using h4
          simp [update_activity, h1, h2, h2b, h4b]
  case kMax =>
    by_cases h1 : (s.problem.activities rowid).lastchange = s.stats.nrounds
    · simp [update_activity, h1]
    · by_cases h4 : isRowRedundant s.problem rowid = true
      · simp [update_activity, h1, h4]
      · by_cases h3 : (s.problem.activities rowid).ninfmax > 1
        · have h3b : ¬ (s.problem.activities rowid).ninfmax ≤ 1 := by omega
          simp [update_activity, h1, h3, h3b, h4]
        · have h3b : (s.problem.activities rowid).ninfmax ≤ 1 := by omega
          have h4b : isRowRedundant s.problem rowid = false := by
            simpa using h4
          simp [update_activity, h1, h3, h3b, h4b]

/-- C4 counterexample: markColFixed is not idempotent; at the concrete
base state a second call on column zero bumps the deleted-column counter
again and duplicates the worklist entry. -/
theorem papilo_C4_counterexample :
    (markColFixed baseState 0).stats.ndeletedcols = 1 ∧
    (markColFixed (markColFixed baseState 0) 0).stats.ndeletedcols = 2 ∧
    (markColFixed (markColFixed baseState 0) 0).deletedCols = [0, 0] := by
  refine ⟨by decide, by decide, by decide⟩

/-- C4 amended: markRowRedundant is idempotent and bumps the
deleted-row counter only on its first effective call; markColFixed sets
the flag, pushes the column and bumps the deleted-column counter on every
call and so is not idempotent. -/
theorem papilo_C4_amended :
    (∀ s row, markRowRedundant (markRowRedundant s row) row =
      markRowRedundant s row) ∧
    (∀ s row, (markRowRedundant s row).stats.ndeletedrows =
      if (s.problem.rflags row).redundant then s.stats.ndeletedrows
      else s.stats.ndeletedrows + 1) ∧
    (∀ s col, (markColFixed (markColFixed s col) col).stats.ndeletedcols =
      s.stats.ndeletedcols + 2) ∧
    (∀ s col, (markColFixed (markColFixed s col) col).deletedCols =
      (s.deletedCols ++ [col]) ++ [col]) := by
  refine ⟨?_, ?_, ?_, ?_⟩
  · intro s row
    by_cases h : (s.problem.rflags row).redundant
    · simp [markRowRedundant, h]
    · simp [markRowRedundant, h, updf_same]
  · intro s row
    by_cases h : (s.problem.rflags row).redundant <;>
      simp [markRowRedundant, h]
  · intro s col
    simp [markColFixed]
    omega
  · intro s col
    simp [markColFixed]

/-- C5: the two asserts in the body of fixColInfinity jointly require
val to be negative and positive at once, so their conjunction is false
for every column flags and every value; the failing input fixColInfinity
of column zero at value -1 on an active column nevertheless marks the
column fixed, changes no bound or activity, and returns kReduced. -/
theorem papilo_C5_fixColInfinity :
    (∀ cf v, fixColInfinityAsserts cf v = false) ∧
    fixColInfinityAsserts (baseState.problem.cflags 0) (-1) = false ∧
    (fixColInfinity baseState 0 (-1)).1 = .kReduced ∧
    ((fixColInfinity baseState 0 (-1)).2.problem.cflags 0).fixed = true ∧
    (fixColInfinity baseState 0 (-1)).2.problem.lbs 0 =
      baseState.problem.lbs 0 ∧
    (fixColInfinity baseState 0 (-1)).2.problem.ubs 0 =
      baseState.problem.ubs 0 ∧
    (fixColInfinity baseState 0 (-1)).2.problem.activities =
      baseState.problem.activities := by
  refine ⟨?_, ?_, ?_, ?_, ?_, ?_, ?_⟩
  · intro cf v
    by_cases h : v < 0
    · have h2 : ¬ v > 0 := by linarith
      simp [fixColInfinityAsserts, h2]
    · simp [fixColInfinityAsserts, h]
  · decide
  · decide
  · decide
  · decide
  · decide
  · rfl

/-- C10: when presolveOptions.dualreds is zero, removeEmptyColumns
returns kUnchanged and the state untouched: nothing is fixed or notified,
no colSize is set to -1, objective and statistics are unchanged, and the
emptyColumns worklist is not cleared. -/
theorem papilo_C10_removeEmptyColumns (opts : PresolveOptionsM)
    (s : UpdateM) (h : opts.dualreds = 0) :
    removeEmptyColumns opts s = (.kUnchanged, s) := by
  unfold removeEmptyColumns
  rw [if_neg]
  intro hc
  exact hc.1 h

/-- Options with dual reductions disabled. -/
def optsDual0 : PresolveOptionsM := { dualreds := 0 }

/-- A state with a pending empty column in the worklist. -/
def stateC10 : UpdateM := { baseState with emptyColumns := [3] }

/-- C10 witness: concrete instantiation of the frame property at a state
with a non-empty worklist. -/
theorem papilo_C10_witness :
    optsDual0.dualreds = 0 ∧
    removeEmptyColumns optsDual0 stateC10 = (.kUnchanged, stateC10) :=
  ⟨rfl, papilo_C10_removeEmptyColumns optsDual0 stateC10 rfl⟩

/-- C8: the rowsize-zero arm of trivialRowPresolve yields kInfeasible
precisely when the finite left-hand side is feasibility-greater than zero
or the finite right-hand side is feasibility-less than zero; otherwise
the empty row is marked redundant and its size set to -1, so a non-zero
side within the feasibility tolerance of zero is redundant, not
infeasible. -/
theorem papilo_C8_empty_row (nm : NumM) (rf : RowFlagsM) (lhsv rhsv : ℚ)
    (rowsz : Int) :
    trivialRowPresolveEmptyRow nm rf lhsv rhsv rowsz =
      if (rf.lhsInf = false ∧ nm.isFeasGT lhsv 0 = true) ∨
         (rf.rhsInf = false ∧ nm.isFeasLT rhsv 0 = true) then
        (.kInfeasible, rf, rowsz)
      else (.kReduced, { rf with redundant := true }, -1) := by
  unfold trivialRowPresolveEmptyRow
  by_cases hA : rf.lhsInf = false ∧ nm.isFeasGT lhsv 0 = true
  · simp [hA]
  · by_cases hB : rf.rhsInf = false ∧ nm.isFeasLT rhsv 0 = true
    · simp [hA, hB]
    · simp [hA, hB]

/-- The update-activity callback leaves the statistics untouched. -/
theorem update_activity_stats (s : UpdateM) (actChange : ActivityChange)
    (rowid : Nat) : (update_activity s actChange rowid).stats = s.stats := by
  simp only [update_activity]
  split_ifs <;> rfl

/-- Walking a column with update_activities_after_boundchange and the
real callback leaves the statistics untouched. -/
theorem update_acts_stats (bc : BoundChange) (oldV newV : ℚ) (w : Bool) :
    ∀ (pairs : List (Nat × ℚ)) (s : UpdateM),
    (update_activities_after_boundchange bc oldV newV w
      updateActivityCallback pairs s).stats = s.stats := by
  intro pairs
  induction pairs with
  | nil => intro s; rfl
  | cons rv rest ih =>
    intro s
    unfold update_activities_after_boundchange
    rw [ih]
    unfold updateActivityCallback
    rw [update_activity_stats]

/-- The tail of changeLB does not move the bound-change counter. -/
theorem changeLBFinish_nboundchgs (nm : NumM) (s : UpdateM) (col : Nat)
    (nb : ℚ) :
    (changeLBFinish nm s col nb).2.stats.nboundchgs =
      s.stats.nboundchgs := by
  simp only [changeLBFinish, setColState]
  split_ifs <;> simp [update_acts_stats]

/-- The tail of changeUB does not move the bound-change counter. -/
theorem changeUBFinish_nboundchgs (nm : NumM) (s : UpdateM) (col : Nat)
    (nb : ℚ) :
    (changeUBFinish nm s col nb).2.stats.nboundchgs =
      s.stats.nboundchgs := by
  simp only [changeUBFinish, setColState]
  split_ifs <;> simp [update_acts_stats]

/-- C9 amended: changeLB and changeUB bump nboundchgs exactly once
whenever the rounded proposed bound improves on the current bound (or the
bound was infinite), regardless of the status they end with; in
particular the Infeasible return and the clamped Unchanged return still
bump the counter, and the Substituted and non-improving paths do not. -/
theorem papilo_C9_amended :
    (∀ (nm : NumM) (s : UpdateM) (col : Nat) (v : ℚ),
      (changeLB nm s col v).2.stats.nboundchgs =
        if (s.problem.cflags col).substituted = true then s.stats.nboundchgs
        else if (s.problem.cflags col).lbInf = true ∨
            chLBnb nm s col v > s.problem.lbs col then
          s.stats.nboundchgs + 1
        else s.stats.nboundchgs) ∧
    (∀ (nm : NumM) (s : UpdateM) (col : Nat) (v : ℚ),
      (changeUB nm s col v).2.stats.nboundchgs =
        if (s.problem.cflags col).substituted = true then s.stats.nboundchgs
        else if (s.problem.cflags col).ubInf = true ∨
            chUBnb nm s col v < s.problem.ubs col then
          s.stats.nboundchgs + 1
        else s.stats.nboundchgs) := by
  constructor
  · intro nm s col v
    unfold changeLB
    by_cases hsub : (s.problem.cflags col).substituted = true
    · simp [hsub]
    · simp only [hsub, if_false, Bool.false_eq_true]
      by_cases himp : (s.problem.cflags col).lbInf = true ∨
          chLBnb nm s col v > s.problem.lbs col
      · rw [if_pos himp, if_pos himp]
        split_ifs <;>
          simp [changeLBFinish_nboundchgs, bumpBoundChgs]
      · rw [if_neg himp, if_neg himp]
  · intro nm s col v
    unfold changeUB
    by_cases hsub : (s.problem.cflags col).substituted = true
    · simp [hsub]
    · simp only [hsub, if_false, Bool.false_eq_true]
      by_cases himp : (s.problem.cflags col).ubInf = true ∨
          chUBnb nm s col v < s.problem.ubs col
      · rw [if_pos himp, if_pos himp]
        split_ifs <;>
          simp [changeUBFinish_nboundchgs, bumpBoundChgs]
      · rw [if_neg himp, if_neg himp]

/-- C9 counterexample: at the base state, changeLB of column zero with
bounds both zero to the value ten returns kInfeasible yet has already
bumped nboundchgs from zero to one, refuting the claim that the counter
never moves on an Infeasible return. -/
theorem papilo_C9_counterexample :
    (changeLB num0 baseState 0 10).1 = .kInfeasible ∧
    (changeLB num0 baseState 0 10).2.stats.nboundchgs = 1 ∧
    baseState.stats.nboundchgs = 0 := by
  refine ⟨by decide, by decide, by decide⟩

/-- A state whose column zero has lower bound zero and an infinite upper
bound, used for the huge-bound tests. -/
def stateC3 : UpdateM :=
  { baseState with problem := { baseProblem with
      cflags := updf baseProblem.cflags 0
        { cleanColFlags with ubInf := true } } }

/-- C3 counterexample: changeLB of column zero with the huge value 1000
takes the huge branch, returns kReduced and stores the bound, yet leaves
kLbHuge clear, refuting the claim that a huge new bound sets the LbHuge
flag. -/
theorem papilo_C3_counterexample :
    num0.isHugeVal (chLBnb num0 stateC3 0 1000) = true ∧
    (changeLB num0 stateC3 0 1000).1 = .kReduced ∧
    ((changeLB num0 stateC3 0 1000).2.problem.cflags 0).lbHuge = false ∧
    (changeLB num0 stateC3 0 1000).2.problem.lbs 0 = 1000 := by
  refine ⟨by decide, by decide, by decide, by decide⟩

/-- C3 amended: on the unclamped improving path with a huge rounded new
bound, changeLB clears kLbInf, leaves kLbHuge exactly as it was
(preserving it when already set but never setting it), stores the new
bound, performs no activity update and enqueues nothing, and returns
kReduced; symmetrically for changeUB and kUbHuge. -/
theorem papilo_C3_amended :
    (∀ (nm : NumM) (s : UpdateM) (col : Nat) (v : ℚ),
      (s.problem.cflags col).substituted = false →
      ((s.problem.cflags col).lbInf = true ∨
        chLBnb nm s col v > s.problem.lbs col) →
      ¬ ((s.problem.cflags col).ubInf = false ∧
        chLBnb nm s col v > s.problem.ubs col) →
      nm.isHugeVal (chLBnb nm s col v) = true →
      (changeLB nm s col v).1 = .kReduced ∧
      (changeLB nm s col v).2.problem.activities = s.problem.activities ∧
      (changeLB nm s col v).2.changedActivities = s.changedActivities ∧
      ((changeLB nm s col v).2.problem.cflags col).lbHuge =
        (s.problem.cflags col).lbHuge ∧
      ((changeLB nm s col v).2.problem.cflags col).lbInf = false ∧
      (changeLB nm s col v).2.problem.lbs col = chLBnb nm s col v) ∧
    (∀ (nm : NumM) (s : UpdateM) (col : Nat) (v : ℚ),
      (s.problem.cflags col).substituted = false →
      ((s.problem.cflags col).ubInf = true ∨
        chUBnb nm s col v < s.problem.ubs col) →
      ¬ ((s.problem.cflags col).lbInf = false ∧
        chUBnb nm s col v < s.problem.lbs col) →
      nm.isHugeVal (chUBnb nm s col v) = true →
      (changeUB nm s col v).1 = .kReduced ∧
      (changeUB nm s col v).2.problem.activities = s.problem.activities ∧
      (changeUB nm s col v).2.changedActivities = s.changedActivities ∧
      ((changeUB nm s col v).2.problem.cflags col).ubHuge =
        (s.problem.cflags col).ubHuge ∧
      ((changeUB nm s col v).2.problem.cflags col).ubInf = false ∧
      (changeUB nm s col v).2.problem.ubs col = chUBnb nm s col v) := by
  constructor
  · intro nm s col v hsub himp hncl hhuge
    unfold changeLB
    simp only [hsub, Bool.false_eq_true, if_false]
    rw [if_pos himp, if_neg hncl]
    simp only [changeLBFinish, setColState, bumpBoundChgs]
    rw [if_pos hhuge]
    split_ifs <;> simp [updf]
  · intro nm s col v hsub himp hncl hhuge
    unfold changeUB
    simp only [hsub, Bool.false_eq_true, if_false]
    rw [if_pos himp, if_neg hncl]
    simp only [changeUBFinish, setColState, bumpBoundChgs]
    rw [if_pos hhuge]
    split_ifs <;> simp [updf]

/-- C3 witness: concrete instantiation of the huge-bound behavior at the
state with an infinite upper bound on column zero. -/
theorem papilo_C3_amended_witness :
    (stateC3.problem.cflags 0).substituted = false ∧
    ((stateC3.problem.cflags 0).lbInf = true ∨
      chLBnb num0 stateC3 0 1000 > stateC3.problem.lbs 0) ∧
    (¬ ((stateC3.problem.cflags 0).ubInf = false ∧
      chLBnb num0 stateC3 0 1000 > stateC3.problem.ubs 0)) ∧
    num0.isHugeVal (chLBnb num0 stateC3 0 1000) = true ∧
    ((changeLB num0 stateC3 0 1000).1 = .kReduced ∧
      (changeLB num0 stateC3 0 1000).2.problem.activities =
        stateC3.problem.activities ∧
      (changeLB num0 stateC3 0 1000).2.changedActivities =
        stateC3.changedActivities ∧
      ((changeLB num0 stateC3 0 1000).2.problem.cflags 0).lbHuge =
        (stateC3.problem.cflags 0).lbHuge ∧
      ((changeLB num0 stateC3 0 1000).2.problem.cflags 0).lbInf = false ∧
      (changeLB num0 stateC3 0 1000).2.problem.lbs 0 =
        chLBnb num0 stateC3 0 1000) :=
  ⟨by decide, by decide, by decide, by decide,
    papilo_C3_amended.1 num0 stateC3 0 1000 (by decide) (by decide)
      (by decide) (by decide)⟩

/-- Setting the locked bit on flags already locked is the identity. -/
theorem setFlag_locked_self (f : TxStateFlags) (hf : f.locked = true) :
    f.setFlag .locked = f := by
  cases f
  simp only [TxStateFlags.setFlag]
  simp_all

/-- C2 counterexample: starting from a clean round state, two successive
transactions that each lock-strong column five both return kApplied; the
second is not rejected, because LOCKED_STRONG records the Locked state
bit while the conflict check for a lock tests only the Modified bit. -/
theorem papilo_C2_counterexample :
    (applyTransaction num0 baseState [RedOp.colLockedStrong 5]).1 =
      .kApplied ∧
    (applyTransaction num0
      (applyTransaction num0 baseState [RedOp.colLockedStrong 5]).2
      [RedOp.colLockedStrong 5]).1 = .kApplied ∧
    decide ((applyTransaction num0
      (applyTransaction num0 baseState [RedOp.colLockedStrong 5]).2
      [RedOp.colLockedStrong 5]).1 = ApplyResult.kRejected) = false := by
  refine ⟨by decide, by decide, by decide⟩

/-- C2 amended: a transaction locking a column conflicts only when the
column state already records Modified; a prior LOCKED_STRONG sets only
the Locked bit, so when two transactions in the same round lock-strong
the same not-yet-modified column, both return kApplied and the second
leaves the whole state unchanged. -/
theorem papilo_C2_amended (nm : NumM) (s : UpdateM) (c : Nat)
    (h : (s.colState c).modified = false) :
    (applyTransaction nm s [RedOp.colLockedStrong c]).1 = .kApplied ∧
    applyTransaction nm (applyTransaction nm s [RedOp.colLockedStrong c]).2
        [RedOp.colLockedStrong c] =
      (.kApplied, (applyTransaction nm s [RedOp.colLockedStrong c]).2) := by
  have hconf : checkTransactionConflicts s [RedOp.colLockedStrong c] =
      .kNoConflict := by
    simp [checkTransactionConflicts, reductionConflict, h]
  have h1 : applyTransaction nm s [RedOp.colLockedStrong c] =
      (.kApplied, setColState s c .locked) := by
    unfold applyTransaction
    rw [hconf]
    simp [applyTransactionGo, applyReduction]
  have hmod : ((setColState s c .locked).colState c).modified = false := by
    simp only [setColState]
    split_ifs <;> simp [updf_same, TxStateFlags.setFlag, h]
  have hlock : ((setColState s c .locked).colState c).locked = true := by
    simp only [setColState]
    split_ifs <;> simp [updf_same, TxStateFlags.setFlag]
  have hconf2 : checkTransactionConflicts (setColState s c .locked)
      [RedOp.colLockedStrong c] = .kNoConflict := by
    simp [checkTransactionConflicts, reductionConflict, hmod]
  have hunmod : ((setColState s c .locked).colState c).isUnmodified =
      false := by
    simp [TxStateFlags.isUnmodified, hlock]
  have hfix : setColState (setColState s c .locked) c .locked =
      setColState s c .locked := by
    conv_lhs => rw [setColState]
    rw [hunmod]
    simp only [Bool.false_eq_true, if_false]
    rw [setFlag_locked_self _ hlock, updf_self]
  have h2 : applyTransaction nm (setColState s c .locked)
      [RedOp.colLockedStrong c] =
      (.kApplied, setColState (setColState s c .locked) c .locked) := by
    unfold applyTransaction
    rw [hconf2]
    simp [applyTransactionGo, applyReduction]
  refine ⟨by rw [h1], ?_⟩
  rw [h1, h2, hfix]

/-- C2 witness: the amended statement at the clean base state and column
five. -/
theorem papilo_C2_amended_witness :
    (baseState.colState 5).modified = false ∧
    ((applyTransaction num0 baseState [RedOp.colLockedStrong 5]).1 =
      .kApplied ∧
    applyTransaction num0
        (applyTransaction num0 baseState [RedOp.colLockedStrong 5]).2
        [RedOp.colLockedStrong 5] =
      (.kApplied,
        (applyTransaction num0 baseState [RedOp.colLockedStrong 5]).2)) :=
  ⟨by decide, papilo_C2_amended num0 baseState 5 (by decide)⟩

/-- A state whose column one is fixed, so a PARALLEL reduction on it is
rejected during application. -/
def stateC1 : UpdateM :=
  { baseState with problem := { baseProblem with
      cflags := updf baseProblem.cflags 1
        { cleanColFlags with fixed := true } } }

/-- C1 counterexample: a transaction whose first record lock-strongs
column zero and whose second record is a PARALLEL merge on the inactive
column one returns kRejected, yet the lock of column zero persists: the
column state and the dirty list have changed, so a rejected transaction
is not free of effects. -/
theorem papilo_C1_counterexample :
    (applyTransaction num0 stateC1
      [RedOp.colLockedStrong 0, RedOp.colParallel 1 2]).1 = .kRejected ∧
    ((applyTransaction num0 stateC1
      [RedOp.colLockedStrong 0, RedOp.colParallel 1 2]).2.colState 0).locked
      = true ∧
    (stateC1.colState 0).locked = false ∧
    (applyTransaction num0 stateC1
      [RedOp.colLockedStrong 0, RedOp.colParallel 1 2]).2.dirtyColStates
      = [0] ∧
    stateC1.dirtyColStates = [] := by
  refine ⟨by decide, by decide, by decide, by decide, by decide⟩

/-- C1 amended: a transaction rejected by the phase-1 conflict check has
no effect, and the rejecting record itself never mutates state before
rejecting, so a single-record transaction that returns kRejected has no
effect; but records applied earlier in the same transaction keep their
effects, so a longer transaction rejected at a later record is not rolled
back. -/
theorem papilo_C1_amended :
    (∀ (nm : NumM) (s : UpdateM) (t : List RedOp),
      checkTransactionConflicts s t = .kConflict →
      applyTransaction nm s t = (.kRejected, s)) ∧
    (∀ (nm : NumM) (s : UpdateM) (r : RedOp),
      (applyTransaction nm s [r]).1 = .kRejected →
      (applyTransaction nm s [r]).2 = s) := by
  constructor
  · intro nm s t h
    unfold applyTransaction
    rw [h]
  · intro nm s r h
    unfold applyTransaction at h ⊢
    cases hc : checkTransactionConflicts s [r]
    · cases r
      case coeffChange row col v =>
        simp [applyTransactionGo, applyReduction, hc] at h
      case colLocked col =>
        simp [applyTransactionGo, applyReduction, hc] at h
      case colLockedStrong col =>
        simp [applyTransactionGo, applyReduction, hc] at h
      case colBoundsLocked col =>
        simp [applyTransactionGo, applyReduction, hc] at h
      case colObjective col v =>
        simp [applyTransactionGo, applyReduction, hc] at h
      case colFixed col v =>
        by_cases hf : (fixCol nm s col v).1 = .kInfeasible <;>
          simp [applyTransactionGo, applyReduction, hc, hf] at h
      case colFixedInfinity col v =>
        by_cases hf : (fixColInfinity s col v).1 = .kInfeasible <;>
          simp [applyTransactionGo, applyReduction, hc, hf] at h
      case colLowerBound col v =>
        by_cases hf : (changeLB nm s col v).1 = .kInfeasible <;>
          simp [applyTransactionGo, applyReduction, hc, hf] at h
      case colUpperBound col v =>
        by_cases hf : (changeUB nm s col v).1 = .kInfeasible <;>
          simp [applyTransactionGo, applyReduction, hc, hf] at h
      case colParallel c1 c2 =>
        by_cases hin : (s.problem.cflags c1).inactive = true ∨
            (s.problem.cflags c2).inactive = true
        · simp [applyTransactionGo, applyReduction, hin]
        · simp [applyTransactionGo, applyReduction, hc, hin] at h
      case rowLocked row =>
        simp [applyTransactionGo, applyReduction, hc] at h
      case rowLockedStrong row =>
        simp [applyTransactionGo, applyReduction, hc] at h
      case rowRedundant row =>
        by_cases hr : (s.problem.rflags row).redundant = true <;>
          simp [applyTransactionGo, applyReduction, hc, hr] at h
    · rfl
    · rw [hc] at h

/-- A state whose column zero is locked in the round state, so a
coefficient change on it is rejected by the conflict check. -/
def stateC1W : UpdateM :=
  { baseState with
    colState := updf baseState.colState 0
      { cleanTxState with locked := true } }

/-- C1 witness: both parts of the amended statement at the state with a
locked column zero and a single coefficient-change record. -/
theorem papilo_C1_amended_witness :
    (checkTransactionConflicts stateC1W [RedOp.coeffChange 0 0 1] =
      .kConflict ∧
    applyTransaction num0 stateC1W [RedOp.coeffChange 0 0 1] =
      (.kRejected, stateC1W)) ∧
    ((applyTransaction num0 stateC1W [RedOp.coeffChange 0 0 1]).1 =
      .kRejected ∧
    (applyTransaction num0 stateC1W [RedOp.coeffChange 0 0 1]).2 =
      stateC1W) :=
  ⟨⟨by decide,
    papilo_C1_amended.1 num0 stateC1W [RedOp.coeffChange 0 0 1]
      (by decide)⟩,
   ⟨by decide,
    papilo_C1_amended.2 num0 stateC1W (RedOp.coeffChange 0 0 1)
      (by decide)⟩⟩

/-- Members of the prefix of length j+1 of a list with position j
overwritten by c are members of the original prefix of length j or equal
to c. -/
theorem mem_take_set {l : List Nat} {j c x : Nat}
    (hx : x ∈ (l.set j c).take (j + 1)) : x ∈ l.take j ∨ x = c := by
  induction l generalizing j with
  | nil => simp at hx
  | cons a tl ih =>
    cases j with
    | zero =>
      simp at hx
      exact Or.inr hx
    | succ m =>
      simp only [List.set, List.take_succ_cons, List.mem_cons] at hx
      rcases hx with rfl | hx2
      · exact Or.inl (by simp [List.take_succ_cons])
      · rcases ih hx2 with h1 | h2
        · exact Or.inl (by simp [List.take_succ_cons, h1])
        · exact Or.inr h2

/-- Invariant of the compaction loop: starting at position i with k
entries removed so far and a compacted prefix of singleton entries, the
loop keeps the list length, removes at most one entry per iteration, and
leaves a compacted prefix of singleton entries. -/
theorem compactGo_invariant (p : Nat → Bool) :
    ∀ (fuel : Nat) (sc : List Nat) (i k : Nat),
    k ≤ i → i + fuel ≤ sc.length →
    (∀ x ∈ sc.take (i - k), p x = true) →
    (compactGo p fuel sc i k).2 ≤ i + fuel ∧
    k ≤ (compactGo p fuel sc i k).2 ∧
    (compactGo p fuel sc i k).2 ≤ k + fuel ∧
    (compactGo p fuel sc i k).1.length = sc.length ∧
    (∀ x ∈ (compactGo p fuel sc i k).1.take
      (i + fuel - (compactGo p fuel sc i k).2), p x = true) := by
  intro fuel
  induction fuel with
  | zero =>
    intro sc i k hk hlen hpre
    have h : compactGo p 0 sc i k = (sc, k) := rfl
    rw [h]
    exact ⟨by omega, Nat.le_refl k, by omega, rfl, by simpa using hpre⟩
  | succ fuel ih =>
    intro sc i k hk hlen hpre
    have hi : i < sc.length := by omega
    have hget : sc.get? i = some (sc.get ⟨i, hi⟩) := List.get?_eq_get hi
    simp only [compactGo, hget]
    by_cases hp : p (sc.get ⟨i, hi⟩) = false
    · rw [if_pos hp]
      have h1 : i + 1 + fuel ≤ sc.length := by omega
      have h2 : ∀ x ∈ sc.take (i + 1 - (k + 1)), p x = true := by
        have : i + 1 - (k + 1) = i - k := by omega
        rw [this]
        exact hpre
      have := ih sc (i + 1) (k + 1) (by omega) h1 h2
      have heq : i + 1 + fuel = i + (fuel + 1) := by omega
      rw [heq] at this
      exact ⟨this.1, by omega, by omega, this.2.2.2.1, this.2.2.2.2⟩
    · rw [if_neg hp]
      have hptrue : p (sc.get ⟨i, hi⟩) = true := by
        cases hb : p (sc.get ⟨i, hi⟩)
        · exact absurd hb hp
        · rfl
      by_cases hknz : k ≠ 0
      · rw [if_pos hknz]
        have hlset : (sc.set (i - k) (sc.get ⟨i, hi⟩)).length = sc.length :=
          List.length_set sc (i - k) (sc.get ⟨i, hi⟩)
        have h1 : i + 1 + fuel ≤ (sc.set (i - k) (sc.get ⟨i, hi⟩)).length :=
          by omega
        have h2 : ∀ x ∈ (sc.set (i - k) (sc.get ⟨i, hi⟩)).take
            (i + 1 - k), p x = true := by
          intro x hx
          have : i + 1 - k = (i - k) + 1 := by omega
          rw [this] at hx
          rcases mem_take_set hx with hmem | hxc
          · exact hpre x hmem
          · rw [hxc]
            exact hptrue
        have := ih (sc.set (i - k) (sc.get ⟨i, hi⟩)) (i + 1) k
          (by omega) h1 h2
        have heq : i + 1 + fuel = i + (fuel + 1) := by omega
        rw [heq] at this
        exact ⟨this.1, this.2.1, by omega,
          by rw [this.2.2.2.1, hlset], this.2.2.2.2⟩
      · rw [if_neg hknz]
        have hk0 : k = 0 := by omega
        have h1 : i + 1 + fuel ≤ sc.length := by omega
        have h2 : ∀ x ∈ sc.take (i + 1 - k), p x = true := by
          intro x hx
          rw [hk0] at hx
          simp only [Nat.sub_zero] at hx
          rw [List.take_succ] at hx
          rcases List.mem_append.mp hx with hmem | hlast
          · apply hpre
            rw [hk0]
            simpa using hmem
          · have hgetElem : sc[i]? = some (sc.get ⟨i, hi⟩) := by
              simp [List.getElem?_eq_getElem hi, List.get_eq_getElem]
            rw [hgetElem] at hlast
            simp at hlast
            rw [hlast]
            exact hptrue
        have := ih sc (i + 1) k (by omega) h1 h2
        have heq : i + 1 + fuel = i + (fuel + 1) := by omega
        rw [heq] at this
        exact ⟨this.1, this.2.1, by omega, this.2.2.2.1, this.2.2.2.2⟩

/-- The compaction step does not touch the problem data. -/
theorem flushSingletonCompaction_problem (s : UpdateM) :
    (flushSingletonCompaction s).problem = s.problem := by
  simp only [flushSingletonCompaction]
  split_ifs <;> rfl

/-- After the compaction step of flush, every entry of the
singleton-column worklist has column size one and the split index lies
within the worklist. -/
theorem flushSingletonCompaction_spec (s : UpdateM)
    (hf : s.firstNewSingletonCol ≤ s.singletonColumns.length) :
    singletonConsistency (flushSingletonCompaction s) := by
  unfold singletonConsistency
  rw [flushSingletonCompaction_problem]
  simp only [flushSingletonCompaction]
  by_cases hemp : s.singletonColumns.isEmpty
  · rw [if_pos hemp]
    have hnil : s.singletonColumns = [] := List.isEmpty_iff.mp hemp
    constructor
    · intro c hc
      rw [hnil] at hc
      simp at hc
    · exact hf
  · rw [if_neg hemp]
    have H1 := compactGo_invariant
      (fun c => decide (s.problem.colSize c = 1))
      s.firstNewSingletonCol s.singletonColumns 0 0
      (Nat.le_refl 0) (by omega) (by simp)
    set p : Nat → Bool := fun c => decide (s.problem.colSize c = 1)
      with hp
    set r1 := compactGo p s.firstNewSingletonCol s.singletonColumns 0 0
      with hr1
    have hn : r1.1.length = s.singletonColumns.length := H1.2.2.2.1
    have H2 := compactGo_invariant p (r1.1.length - s.firstNewSingletonCol)
      r1.1 s.firstNewSingletonCol r1.2
      (by simpa using H1.1) (by omega) (by simpa using H1.2.2.2.2)
    set r2 := compactGo p (r1.1.length - s.firstNewSingletonCol) r1.1
      s.firstNewSingletonCol r1.2 with hr2
    have hidx : s.firstNewSingletonCol +
        (r1.1.length - s.firstNewSingletonCol) = r1.1.length := by omega
    constructor
    · intro c hc
      simp only [] at hc
      have hc2 : c ∈ r2.1.take (s.firstNewSingletonCol +
          (r1.1.length - s.firstNewSingletonCol) - r2.2) := by
        rw [hidx]
        exact hc
      have := H2.2.2.2.2 c hc2
      exact of_decide_eq_true this
    · simp only []
      rw [List.length_take]
      have hlen2 : r2.1.length = r1.1.length := H2.2.2.2.1
      have h21 : r1.2 ≤ r2.2 := H2.2.1
      have h2max : r2.2 ≤ r1.2 + (r1.1.length - s.firstNewSingletonCol) :=
        H2.2.2.1
      have h1max : r1.2 ≤ 0 + s.firstNewSingletonCol := H1.2.2.1
      omega

/-- Preservation of the singleton worklist and of singleton column sizes
by one state transition of the update core. -/
def preservesSingletons (s t : UpdateM) : Prop :=
  t.singletonColumns = s.singletonColumns ∧
  t.firstNewSingletonCol = s.firstNewSingletonCol ∧
  (∀ c, s.problem.colSize c = 1 → t.problem.colSize c = 1)

/-- The fixing branch of removeEmptyColumns preserves the singleton
worklist and all column sizes. -/
theorem emptyColFix_preserves (s : UpdateM) (col : Nat) :
    (∀ t, emptyColFix s col = .ok t →
      t.singletonColumns = s.singletonColumns ∧
      t.firstNewSingletonCol = s.firstNewSingletonCol ∧
      t.problem.colSize = s.problem.colSize) ∧
    (∀ t, emptyColFix s col = .error t → t = s) := by
  unfold emptyColFix
  split_ifs <;> constructor <;> intro t ht <;>
    first
      | (injection ht with h
         rw [← h]
         simp [emptyColNotifyFix, emptyColObjUpdate])
      | (injection ht with h
         rw [← h])
      | (exact absurd ht (by simp))

/-- One iteration of the removeEmptyColumns loop preserves the singleton
worklist and the sizes of singleton columns. -/
theorem removeEmptyColStep_preserves (opts : PresolveOptionsM)
    (s : UpdateM) (col : Nat) :
    (∀ t, removeEmptyColStep opts s col = .ok t →
      preservesSingletons s t) ∧
    (∀ t, removeEmptyColStep opts s col = .error t →
      preservesSingletons s t) := by
  unfold removeEmptyColStep
  by_cases h0 : s.problem.colSize col ≠ 0
  · rw [if_pos h0]
    constructor <;> intro t ht
    · injection ht with h
      rw [← h]
      exact ⟨rfl, rfl, fun c hc => hc⟩
    · exact absurd ht (by simp)
  · rw [if_neg h0]
    have hz : s.problem.colSize col = 0 := by omega
    by_cases h1 : opts.dualreds = 1 ∧ s.problem.objCoef col = 0
    · rw [if_pos h1]
      constructor <;> intro t ht
      · injection ht with h
        rw [← h]
        exact ⟨rfl, rfl, fun c hc => hc⟩
      · exact absurd ht (by simp)
    · rw [if_neg h1]
      by_cases hia : (s.problem.cflags col).inactive = false
      · rw [if_pos hia]
        cases hfix : emptyColFix s col with
        | ok t0 =>
          have hpres := (emptyColFix_preserves s col).1 t0 hfix
          constructor <;> intro t ht
          · injection ht with h
            rw [← h]
            refine ⟨by simp [hpres.1], by simp [hpres.2.1], ?_⟩
            intro c hc
            simp only []
            rw [updf_ne]
            · rw [hpres.2.2]
              exact hc
            · intro hceq
              rw [hceq] at hc
              rw [hz] at hc
              exact absurd hc (by decide)
          · exact absurd ht (by simp)
        | error t0 =>
          have hpres := (emptyColFix_preserves s col).2 t0 hfix
          constructor <;> intro t ht
          · exact absurd ht (by simp)
          · injection ht with h
            rw [← h, hpres]
            exact ⟨rfl, rfl, fun c hc => hc⟩
      · rw [if_neg hia]
        constructor <;> intro t ht
        · injection ht with h
          rw [← h]
          refine ⟨rfl, rfl, ?_⟩
          intro c hc
          simp only []
          rw [updf_ne]
          · exact hc
          · intro hceq
            rw [hceq] at hc
            rw [hz] at hc
            exact absurd hc (by decide)
        · exact absurd ht (by simp)

/-- The removeEmptyColumns loop preserves the singleton worklist and the
sizes of singleton columns. -/
theorem removeEmptyColsLoop_preserves (opts : PresolveOptionsM) :
    ∀ (l : List Nat) (s : UpdateM),
    (∀ t, removeEmptyColsLoop opts l s = .ok t →
      preservesSingletons s t) ∧
    (∀ t, removeEmptyColsLoop opts l s = .error t →
      preservesSingletons s t) := by
  intro l
  induction l with
  | nil =>
    intro s
    constructor <;> intro t ht
    · injection ht with h
      rw [← h]
      exact ⟨rfl, rfl, fun c hc => hc⟩
    · exact absurd ht (by simp [removeEmptyColsLoop])
  | cons col rest ih =>
    intro s
    constructor <;> intro t ht
    · rw [removeEmptyColsLoop] at ht
      cases hstep : removeEmptyColStep opts s col with
      | ok t0 =>
        rw [hstep] at ht
        have hp1 := (removeEmptyColStep_preserves opts s col).1 t0 hstep
        have hp2 := (ih t0).1 t ht
        exact ⟨hp2.1.trans hp1.1, hp2.2.1.trans hp1.2.1,
          fun c hc => hp2.2.2 c (hp1.2.2 c hc)⟩
      | error t0 =>
        rw [hstep] at ht
        exact absurd ht (by simp)
    · rw [removeEmptyColsLoop] at ht
      cases hstep : removeEmptyColStep opts s col with
      | ok t0 =>
        rw [hstep] at ht
        have hp1 := (removeEmptyColStep_preserves opts s col).1 t0 hstep
        have hp2 := (ih t0).2 t ht
        exact ⟨hp2.1.trans hp1.1, hp2.2.1.trans hp1.2.1,
          fun c hc => hp2.2.2 c (hp1.2.2 c hc)⟩
      | error t0 =>
        rw [hstep] at ht
        injection ht with h
        rw [← h]
        exact (removeEmptyColStep_preserves opts s col).2 t0 hstep

/-- removeEmptyColumns preserves the singleton worklist, the split index
and the sizes of singleton columns. -/
theorem removeEmptyColumns_preserves (opts : PresolveOptionsM)
    (s : UpdateM) : preservesSingletons s (removeEmptyColumns opts s).2 := by
  unfold removeEmptyColumns
  by_cases hg : opts.dualreds ≠ 0 ∧ s.emptyColumns ≠ []
  · rw [if_pos hg]
    cases hloop : removeEmptyColsLoop opts s.emptyColumns s with
    | ok t0 =>
      have := (removeEmptyColsLoop_preserves opts s.emptyColumns s).1
        t0 hloop
      exact ⟨this.1, this.2.1, this.2.2⟩
    | error t0 =>
      exact (removeEmptyColsLoop_preserves opts s.emptyColumns s).2 t0 hloop
  · rw [if_neg hg]
    exact ⟨rfl, rfl, fun c hc => hc⟩

/-- C6: for every state whose split index lies within the
singleton-column worklist (the source asserts this at the compaction
point of flush), after the compaction step every stored index refers to
a column of size one with the split index inside the worklist, and the
only later step of flush that runs, removeEmptyColumns, preserves this
consistency whatever its status, so it holds in the state flush
returns. -/
theorem papilo_C6_singleton_invariant (opts : PresolveOptionsM)
    (s : UpdateM)
    (hf : s.firstNewSingletonCol ≤ s.singletonColumns.length) :
    singletonConsistency (flushSingletonCompaction s) ∧
    singletonConsistency
      ((removeEmptyColumns opts (flushSingletonCompaction s)).2) := by
  have h1 := flushSingletonCompaction_spec s hf
  refine ⟨h1, ?_⟩
  have h2 := removeEmptyColumns_preserves opts (flushSingletonCompaction s)
  unfold singletonConsistency
  rw [h2.1, h2.2.1]
  constructor
  · intro c hc
    exact h2.2.2 c (h1.1 c hc)
  · exact h1.2

/-- A state with two remembered singleton columns, of which only column
zero still has size one, and the split index between them. -/
def stateC6 : UpdateM :=
  { baseState with
    problem := { baseProblem with
      colSize := updf baseProblem.colSize 0 1 },
    singletonColumns := [0, 1],
    firstNewSingletonCol := 1 }

/-- C6 witness: the singleton invariant at a concrete state whose
worklist still holds a stale non-singleton entry. -/
theorem papilo_C6_witness :
    stateC6.firstNewSingletonCol ≤ stateC6.singletonColumns.length ∧
    (singletonConsistency (flushSingletonCompaction stateC6) ∧
     singletonConsistency
       ((removeEmptyColumns optsDual0
         (flushSingletonCompaction stateC6)).2)) :=
  ⟨by decide,
    papilo_C6_singleton_invariant optsDual0 stateC6 (by decide)⟩

end PapiloSpec
